import Mathlib

/-!
Verification of the stock-forecast pipeline in `stocks.py`.

The program is a three-stage pipeline: `fetch` (HTTP GET of a forecast
page), `parse` (locate headings and the forecasts tab in the page), and
`get_prices` (match a fixed regular expression against the paragraph
fragments and extract four exact decimal prices).

The embedding below translates each stage into Lean:
 - Python exceptions become explicit result constructors carrying the
   exception class and message string.
 - The HTTP transport is an explicit oracle `String → HttpResponse`;
   `fetch` additionally returns the list of request URLs it dispatched,
   so that absence of network activity is the empty list.
 - A page already parsed by the HTML library is a structure holding the
   texts of its top-level headings and, optionally, the paragraph texts
   of the element with id `wsod_forecasts`.
 - The module-level compiled regular expression `PATTERN` becomes a
   token list, and `re.match` becomes a backtracking matcher `matchToks`
   with leftmost greedy semantics (a `.` or `.*` never crosses a newline,
   `re.match` anchors the start of the string but not its end).
 - `Decimal` values become exact rationals.
-/

/-- Exception classes defined by the program: `InvalidSymbolError`,
`NetworkError` and `ParsingError` are the only three. -/
inductive ErrClass where
  | InvalidSymbolError
  | NetworkError
  | ParsingError
deriving DecidableEq, Repr

/-- A raised Python exception: its class together with its message. -/
structure PyErr where
  cls : ErrClass
  msg : String
deriving DecidableEq, Repr

/-- An HTTP response as seen by `fetch`: status code, reason phrase and body. -/
structure HttpResponse where
  status_code : Nat
  reason : String
  text : String
deriving DecidableEq, Repr

/-- Result of `fetch`: either the page body or a raised exception. -/
inductive FetchResult where
  | ok (text : String)
  | raised (e : PyErr)
deriving DecidableEq, Repr

/-- Default base URL from the source. -/
def BASE_URL : String := "https://money.cnn.com/quote/forecast/forecast.html?symb="

/-- Embedding of `fetch(symbol, url)`.  The HTTP transport is the oracle
`http`; the second component of the result lists the URLs of the requests
that were dispatched, in order. -/
def fetch (symbol : String) (url : String) (http : String → HttpResponse) :
    FetchResult × List String :=
  if symbol = "" then
    (.raised ⟨.InvalidSymbolError, "The symbol must contain at least one character"⟩, [])
  else
    let requestUrl := url ++ symbol
    let webpage := http requestUrl
    if webpage.status_code = 200 then
      (.ok webpage.text, [requestUrl])
    else
      (.raised ⟨.NetworkError,
        "The page could not be loaded. (Error: " ++ toString webpage.status_code ++
          " - Reason: " ++ webpage.reason ++ ")"⟩,
       [requestUrl])

/-- Embedding of `str.lower()` (character-wise lower-casing). -/
def pyLower (s : String) : String := String.mk (s.data.map Char.toLower)

/-- A paragraph-level element of the page; `text` is its text content
(the `.text` attribute used by `get_prices`). -/
structure Fragment where
  text : String
deriving DecidableEq, Repr

/-- A page after HTML parsing: the text of every top-level `h1` heading,
and, when the element with id `wsod_forecasts` exists, the list of its
`p` elements. -/
structure Html where
  h1Texts : List String
  forecastsTab : Option (List Fragment)
deriving DecidableEq, Repr

/-- Result of `parse`: the tuple of paragraph elements or a raised exception. -/
inductive ParseResult where
  | ok (elements : List Fragment)
  | raised (e : PyErr)
deriving DecidableEq, Repr

/-- Embedding of `parse(page)`: check the lower-cased `h1` headings for the
sentinel first, then return the paragraphs of the forecasts tab if present,
else raise `ParsingError`. -/
def parse (page : Html) : ParseResult :=
  let headings := page.h1Texts.map pyLower
  if headings.contains "symbol not found" then
    .raised ⟨.InvalidSymbolError, "The symbol could not be found"⟩
  else
    match page.forecastsTab with
    | some tab => .ok tab
    | none => .raised ⟨.ParsingError, "An error occurred while attempting to parse this page."⟩

/-!
The fixed pattern.  The source regular expression is

  The \d.* analysts offering 12-month price forecasts for .* have a median
  target of (?P<median>\d*\.\d\x7b2\x7d) with a high estimate of
  (?P<high>\d*\.\d\x7b2\x7d) and a low estimate of (?P<low>\d*\.\d\x7b2\x7d).
  The median estimate represents a .*% (?:in|de)crease from the last price
  of (?P<current>\d*\.\d\x7b2\x7d)\.

Tokens: literal runs, `\d` (one digit), `.` (one non-newline character —
note the dot after the `low` group is not escaped in the source), `.*`
(greedy non-newline run), the four capturing number groups `\d*\.\d\x7b2\x7d`,
and the alternation `(?:in|de)`.
-/

/-- One token of the compiled pattern. -/
inductive Tok where
  | lit (cs : List Char)
  | digit
  | anyOne
  | anyStar
  | num
  | inde
deriving DecidableEq, Repr

/-- Greedy loop for `.*`: try consuming `n` characters first, then back off. -/
def starLoop (next : List Char → Option (List (List Char))) (s : List Char) :
    Nat → Option (List (List Char))
  | 0 => next s
  | Nat.succ k =>
    match next (s.drop (k + 1)) with
    | some r => some r
    | none => starLoop next s k

/-- Attempt the number group `\d*\.\d\x7b2\x7d` consuming exactly `k` leading
digits: after them the text must continue with a dot and two digits.  On
success the captured text is prepended to the captures of the continuation. -/
def numAt (next : List Char → Option (List (List Char))) (s : List Char) (k : Nat) :
    Option (List (List Char)) :=
  match s.drop k with
  | c :: d1 :: d2 :: rest =>
    if c = '.' && d1.isDigit && d2.isDigit then
      match next rest with
      | some r => some ((s.take k ++ [c, d1, d2]) :: r)
      | none => none
    else none
  | _ => none

/-- Greedy loop for `\d*` inside a number group: longest digit run first. -/
def numLoop (next : List Char → Option (List (List Char))) (s : List Char) :
    Nat → Option (List (List Char))
  | 0 => numAt next s 0
  | Nat.succ k =>
    match numAt next s (k + 1) with
    | some r => some r
    | none => numLoop next s k

/-- First alternative wins: used for the alternation `(?:in|de)`. -/
def tryFirst (a b : Option (List (List Char))) : Option (List (List Char)) :=
  match a with
  | some r => some r
  | none => b

/-- Backtracking matcher for a token list, anchored at the start of `s` but
not at its end, exactly as Python `re.match`.  Returns the list of captured
texts of the number groups, in order, on success. -/
def matchToks : List Tok → List Char → Option (List (List Char))
  | [], _ => some []
  | .lit l :: ts, s => if l.isPrefixOf s then matchToks ts (s.drop l.length) else none
  | .digit :: ts, s =>
    match s with
    | [] => none
    | c :: rest => if c.isDigit then matchToks ts rest else none
  | .anyOne :: ts, s =>
    match s with
    | [] => none
    | c :: rest => if c = '\n' then none else matchToks ts rest
  | .anyStar :: ts, s => starLoop (matchToks ts) s (s.takeWhile (fun c => !(c = '\n'))).length
  | .num :: ts, s => numLoop (matchToks ts) s (s.takeWhile Char.isDigit).length
  | .inde :: ts, s =>
    tryFirst (if ['i', 'n'].isPrefixOf s then matchToks ts (s.drop 2) else none)
      (if ['d', 'e'].isPrefixOf s then matchToks ts (s.drop 2) else none)

/-- The compiled module-level pattern of the source, as a token list. -/
def PATTERN : List Tok :=
  [ .lit "The ".data, .digit, .anyStar,
    .lit " analysts offering 12-month price forecasts for ".data, .anyStar,
    .lit " have a median target of ".data, .num,
    .lit " with a high estimate of ".data, .num,
    .lit " and a low estimate of ".data, .num, .anyOne,
    .lit " The median estimate represents a ".data, .anyStar,
    .lit "% ".data, .inde,
    .lit "crease from the last price of ".data, .num,
    .lit ".".data ]

/-- Names of the named groups of `PATTERN`, in their order in the pattern. -/
def GROUP_NAMES : List String := ["median", "high", "low", "current"]

/-- Embedding of `re.match(pattern=PATTERN, string=s)`: `none` when the match
fails, otherwise the captured texts of the four groups in pattern order. -/
def reMatchPattern (s : String) : Option (List String) :=
  (matchToks PATTERN s.data).map (List.map fun cs => String.mk cs)

/-- Embedding of `str.replace(",", "")`. -/
def stripCommas (s : String) : String := String.mk (s.data.filter (fun c => !(c = ',')))

/-- Numeric value of a digit string (most significant digit first). -/
def digitsToNat (cs : List Char) : Nat :=
  cs.foldl (fun acc c => 10 * acc + (c.toNat - '0'.toNat)) 0

/-- Exact value of `Decimal(s)` for the strings produced by the capture
groups: an optional digit run, a dot, and a fractional digit run.  The value
of such a string is its digit sequence read as an integer, divided by ten to
the number of fractional digits — an exact rational, no floating point. -/
def decOfString (s : String) : ℚ :=
  let fracPart := (s.data.dropWhile (fun c => !(c = '.'))).drop 1
  mkRat (digitsToNat (s.data.filter Char.isDigit)) (10 ^ fracPart.length)

/-- Key set required by the guard in `get_prices`. -/
def REQUIRED_KEYS : List String := ["current", "high", "median", "low"]

/-- Equality of key sets, as the guard
`set(quotes.keys()) == \x7b"current", "high", "median", "low"\x7d` compares them. -/
def sameKeySet (a b : List String) : Bool :=
  a.all (fun k => b.contains k) && b.all (fun k => a.contains k)

/-- The `groupdict()` of a successful match: group names zipped with the
captured texts. -/
def groupdict (caps : List String) : List (String × String) :=
  GROUP_NAMES.zip caps

/-- Outcome of `get_prices`: the quote dictionary, the explicit `False` of
the final `else`, the implicit `None` of falling off the loop, or a raised
exception. -/
inductive MatcherOutcome where
  | quote (q : List (String × ℚ))
  | pyFalse
  | pyNone
  | raised (e : PyErr)
deriving DecidableEq, Repr

/-- The `elif`/`else` tail of the loop body of `get_prices`: raise on the
no-forecast sentinel, otherwise return `False`. -/
def noMatchBranch (paragraph : String) : MatcherOutcome :=
  if pyLower paragraph = "there is no forecast data available." then
    .raised ⟨.InvalidSymbolError, "This symbol does not have any forecast data"⟩
  else
    .pyFalse

/-- Embedding of `get_prices(items)`.  Every branch of the loop body is
terminal, so only the first element is ever examined; an empty tuple falls
off the loop and returns Python `None`. -/
def get_prices : List Fragment → MatcherOutcome
  | [] => .pyNone
  | item :: _ =>
    let paragraph := stripCommas item.text
    match reMatchPattern paragraph with
    | some caps =>
      if sameKeySet ((groupdict caps).map Prod.fst) REQUIRED_KEYS then
        .quote ((groupdict caps).map (fun kv => (kv.fst, decOfString kv.snd)))
      else
        noMatchBranch paragraph
    | none => noMatchBranch paragraph

/-- Text of the no-forecast sentinel comparison in `get_prices`. -/
def SENTINEL : String := "there is no forecast data available."

/-!
Declarative semantics of the pattern.  `TokMatches t p` says the token `t`
can consume exactly the text `p`; `Decomp ts s` says `s` begins with a
concatenation of pieces consumed by the tokens of `ts` in order (the final
`True` reflects that `re.match` leaves the end of the string unconstrained).
The theorem `matchToks_isSome_iff` proves the operational backtracking
matcher equivalent to this declarative reading.
-/

/-- Text consumed by one token. -/
def TokMatches : Tok → List Char → Prop
  | .lit l, p => p = l
  | .digit, p => ∃ c, c.isDigit = true ∧ p = [c]
  | .anyOne, p => ∃ c, ¬(c = '\n') ∧ p = [c]
  | .anyStar, p => ∀ c ∈ p, ¬(c = '\n')
  | .num, p => ∃ ds d1 d2, (∀ c ∈ ds, c.isDigit = true) ∧ d1.isDigit = true ∧
      d2.isDigit = true ∧ p = ds ++ ['.', d1, d2]
  | .inde, p => p = ['i', 'n'] ∨ p = ['d', 'e']

/-- Declarative match of a token list against the start of `s`. -/
def Decomp : List Tok → List Char → Prop
  | [], _ => True
  | t :: ts, s => ∃ p q, s = p ++ q ∧ TokMatches t p ∧ Decomp ts q

/-- Shape of the four price captures in the grammar of the specification:
any number of leading digits, a decimal point, exactly two fractional
digits. -/
def NumFmt (m : List Char) : Prop :=
  ∃ ds d1 d2, (∀ ch ∈ ds, ch.isDigit = true) ∧ d1.isDigit = true ∧ d2.isDigit = true ∧
    m = ds ++ ['.', d1, d2]

/-- Formalisation following the words of the specification (its section 6
fixed grammar): the whole input is exactly the fixed sentence,
character-for-character, with free placeholder runs for N, NAME and PCT, an
in/de alternative, and the four price captures of shape `NumFmt`.  This
definition renders the spec claim and is compared against the source
pattern; it is deliberately NOT derived from the source. -/
def SpecSentence (s : String) : Prop :=
  ∃ n name pct dir m h l c : List Char,
    NumFmt m ∧ NumFmt h ∧ NumFmt l ∧ NumFmt c ∧ (dir = ['i', 'n'] ∨ dir = ['d', 'e']) ∧
    s.data = "The ".data ++ n ++ " analysts offering 12-month price forecasts for ".data ++
      name ++ " have a median target of ".data ++ m ++ " with a high estimate of ".data ++
      h ++ " and a low estimate of ".data ++ l ++ ". The median estimate represents a ".data ++
      pct ++ "% ".data ++ dir ++ "crease from the last price of ".data ++ c ++ ".".data

/-- A fragment whose comma-stripped text matches the pattern, with a
thousands-separator comma in the company name. -/
def EX1 : Fragment :=
  ⟨"The 23 analysts offering 12-month price forecasts for Example, Inc have a median target of 34.50 with a high estimate of 50.00 and a low estimate of 20.00. The median estimate represents a 15.00% increase from the last price of 30.00."⟩

/-- Another matching fragment, used as a concrete quote-shaped input. -/
def EX5 : Fragment :=
  ⟨"The 3 analysts offering 12-month price forecasts for Foo have a median target of 1.00 with a high estimate of 2.00 and a low estimate of 0.50. The median estimate represents a 5.00% increase from the last price of 0.90."⟩

/-- A string the source pattern accepts although it is not an instance of
the fixed grammar sentence: text follows the final period, and `re.match`
does not anchor the end of the input. -/
def DEVIANT : String :=
  "The 5 analysts offering 12-month price forecasts for Acme Corp have a median target of 10.00 with a high estimate of 12.00 and a low estimate of 8.00. The median estimate represents a 2.00% decrease from the last price of 9.50.ZZZ"

theorem length_le_length_takeWhile_append (f : Char → Bool) (p q : List Char)
    (hp : ∀ c ∈ p, f c = true) : p.length ≤ ((p ++ q).takeWhile f).length := by
  induction p with
  | nil => simp
  | cons a p ih =>
    have ha : f a = true := hp a (List.mem_cons_self a p)
    simp only [List.cons_append, List.takeWhile_cons_of_pos ha, List.length_cons]
    exact Nat.succ_le_succ (ih (fun c hc => hp c (List.mem_cons_of_mem a hc)))

theorem all_of_take_le_takeWhile (f : Char → Bool) (s : List Char) :
    ∀ k, k ≤ (s.takeWhile f).length → ∀ c ∈ s.take k, f c = true := by
  induction s with
  | nil => intro k hk c hc; simp at hc
  | cons a s ih =>
    intro k hk c hc
    cases k with
    | zero => simp at hc
    | succ k =>
      by_cases ha : f a = true
      · rw [List.takeWhile_cons_of_pos ha, List.length_cons] at hk
        rw [List.take_succ_cons] at hc
        rcases List.mem_cons.mp hc with rfl | hc'
        · exact ha
        · exact ih k (Nat.le_of_succ_le_succ hk) c hc'
      · rw [List.takeWhile_cons_of_neg (by simpa using ha)] at hk
        simp at hk

theorem starLoop_isSome_iff (next : List Char → Option (List (List Char))) (s : List Char) :
    ∀ n, (starLoop next s n).isSome = true ↔
      ∃ k, k ≤ n ∧ (next (s.drop k)).isSome = true := by
  intro n
  induction n with
  | zero =>
    simp only [starLoop]
    constructor
    · intro h; exact ⟨0, Nat.le_refl 0, by simpa using h⟩
    · rintro ⟨k, hk, h⟩
      have hk0 := Nat.le_zero.mp hk
      subst hk0
      simpa using h
  | succ n ih =>
    cases hnext : next (s.drop (n + 1)) with
    | some r =>
      have hL : starLoop next s (n + 1) = some r := by simp [starLoop, hnext]
      rw [hL]
      constructor
      · intro _; exact ⟨n + 1, Nat.le_refl _, by rw [hnext]; rfl⟩
      · intro _; rfl
    | none =>
      have hL : starLoop next s (n + 1) = starLoop next s n := by simp [starLoop, hnext]
      rw [hL, ih]
      constructor
      · rintro ⟨k, hk, h⟩; exact ⟨k, Nat.le_succ_of_le hk, h⟩
      · rintro ⟨k, hk, h⟩
        rcases Nat.lt_or_ge k (n + 1) with hlt | hge
        · exact ⟨k, Nat.lt_succ_iff.mp hlt, h⟩
        · have hk1 : k = n + 1 := Nat.le_antisymm hk hge
          subst hk1
          rw [hnext] at h
          simp at h

theorem numAt_isSome_iff (next : List Char → Option (List (List Char))) (s : List Char)
    (k : Nat) :
    (numAt next s k).isSome = true ↔
      ∃ d1 d2 rest, s.drop k = '.' :: d1 :: d2 :: rest ∧ d1.isDigit = true ∧
        d2.isDigit = true ∧ (next rest).isSome = true := by
  unfold numAt
  cases hd : s.drop k with
  | nil => simp
  | cons c t =>
    cases t with
    | nil => simp
    | cons d1 t2 =>
      cases t2 with
      | nil => simp
      | cons d2 rest =>
        by_cases hc : c = '.'
        · subst hc
          by_cases h1 : d1.isDigit = true
          · by_cases h2 : d2.isDigit = true
            · cases hnext : next rest with
              | some r =>
                simp only [h1, h2, hnext]
                simp only [decide_True, Bool.and_self, if_true, Option.isSome_some, true_iff]
                exact ⟨d1, d2, rest, rfl, h1, h2, by simp [hnext]⟩
              | none => simp [h1, h2, hnext]
            · simp [h1, h2]
          · simp [h1]
        · simp [hc]

theorem numLoop_isSome_iff (next : List Char → Option (List (List Char))) (s : List Char) :
    ∀ n, (numLoop next s n).isSome = true ↔
      ∃ k, k ≤ n ∧ (numAt next s k).isSome = true := by
  intro n
  induction n with
  | zero =>
    simp only [numLoop]
    constructor
    · intro h; exact ⟨0, Nat.le_refl 0, h⟩
    · rintro ⟨k, hk, h⟩
      have hk0 := Nat.le_zero.mp hk
      subst hk0
      exact h
  | succ n ih =>
    cases hnext : numAt next s (n + 1) with
    | some r =>
      have hL : numLoop next s (n + 1) = some r := by simp [numLoop, hnext]
      rw [hL]
      constructor
      · intro _; exact ⟨n + 1, Nat.le_refl _, by rw [hnext]; rfl⟩
      · intro _; rfl
    | none =>
      have hL : numLoop next s (n + 1) = numLoop next s n := by simp [numLoop, hnext]
      rw [hL, ih]
      constructor
      · rintro ⟨k, hk, h⟩; exact ⟨k, Nat.le_succ_of_le hk, h⟩
      · rintro ⟨k, hk, h⟩
        rcases Nat.lt_or_ge k (n + 1) with hlt | hge
        · exact ⟨k, Nat.lt_succ_iff.mp hlt, h⟩
        · have hk1 : k = n + 1 := Nat.le_antisymm hk hge
          subst hk1
          rw [hnext] at h
          simp at h

theorem tryFirst_isSome (a b : Option (List (List Char))) :
    (tryFirst a b).isSome = true ↔ a.isSome = true ∨ b.isSome = true := by
  cases a <;> simp [tryFirst]

theorem prefixStep_isSome (ts : List Tok) (l s : List Char) (n : Nat) (hn : l.length = n)
    (ih : ∀ u, (matchToks ts u).isSome = true ↔ Decomp ts u) :
    (if l.isPrefixOf s then matchToks ts (s.drop n) else none).isSome = true ↔
      ∃ q, s = l ++ q ∧ Decomp ts q := by
  subst hn
  by_cases hp : l.isPrefixOf s = true
  · rcases List.isPrefixOf_iff_prefix.mp hp with ⟨q, rfl⟩
    rw [if_pos hp, List.drop_left, ih]
    constructor
    · intro h; exact ⟨q, rfl, h⟩
    · rintro ⟨q', hs, hD⟩
      have hq : q = q' := List.append_cancel_left hs
      rw [hq]
      exact hD
  · rw [if_neg hp]
    simp only [Option.isSome_none, Bool.false_eq_true, false_iff]
    rintro ⟨q, hs, hD⟩
    exact hp (List.isPrefixOf_iff_prefix.mpr ⟨q, hs.symm⟩)

/-- The operational backtracking matcher succeeds exactly when the token list
admits a declarative decomposition of a prefix of the input. -/
theorem matchToks_isSome_iff (ts : List Tok) :
    ∀ s, (matchToks ts s).isSome = true ↔ Decomp ts s := by
  induction ts with
  | nil => intro s; simp [matchToks, Decomp]
  | cons t ts ih =>
    intro s
    cases t with
    | lit l =>
      simp only [matchToks, Decomp, TokMatches]
      rw [prefixStep_isSome ts l s l.length rfl ih]
      constructor
      · rintro ⟨q, hs, hD⟩; exact ⟨l, q, hs, rfl, hD⟩
      · rintro ⟨p, q, hs, rfl, hD⟩; exact ⟨q, hs, hD⟩
    | digit =>
      cases s with
      | nil =>
        simp only [matchToks, Decomp, TokMatches, Option.isSome_none, Bool.false_eq_true,
          false_iff]
        rintro ⟨p, q, hs, ⟨c, hc, rfl⟩, hD⟩
        simp at hs
      | cons c rest =>
        simp only [matchToks, Decomp, TokMatches]
        by_cases hc : c.isDigit = true
        · rw [if_pos hc, ih]
          constructor
          · intro h; exact ⟨[c], rest, rfl, ⟨c, hc, rfl⟩, h⟩
          · rintro ⟨p, q, hs, ⟨d, hd, rfl⟩, hD⟩
            rw [List.singleton_append] at hs
            injection hs with h1 h2
            subst h1
            subst h2
            exact hD
        · rw [if_neg hc]
          simp only [Option.isSome_none, Bool.false_eq_true, false_iff]
          rintro ⟨p, q, hs, ⟨d, hd, rfl⟩, hD⟩
          rw [List.singleton_append] at hs
          injection hs with h1 h2
          subst h1
          exact hc hd
    | anyOne =>
      cases s with
      | nil =>
        simp only [matchToks, Decomp, TokMatches, Option.isSome_none, Bool.false_eq_true,
          false_iff]
        rintro ⟨p, q, hs, ⟨c, hc, rfl⟩, hD⟩
        simp at hs
      | cons c rest =>
        simp only [matchToks, Decomp, TokMatches]
        by_cases hc : c = '\n'
        · rw [if_pos hc]
          simp only [Option.isSome_none, Bool.false_eq_true, false_iff]
          rintro ⟨p, q, hs, ⟨d, hd, rfl⟩, hD⟩
          rw [List.singleton_append] at hs
          injection hs with h1 h2
          subst h1
          exact hd hc
        · rw [if_neg hc, ih]
          constructor
          · intro h; exact ⟨[c], rest, rfl, ⟨c, hc, rfl⟩, h⟩
          · rintro ⟨p, q, hs, ⟨d, hd, rfl⟩, hD⟩
            rw [List.singleton_append] at hs
            injection hs with h1 h2
            subst h1
            subst h2
            exact hD
    | anyStar =>
      simp only [matchToks, Decomp, TokMatches]
      rw [starLoop_isSome_iff]
      constructor
      · rintro ⟨k, hk, h⟩
        refine ⟨s.take k, s.drop k, (List.take_append_drop k s).symm, ?_, (ih _).mp h⟩
        intro c hc
        have hf := all_of_take_le_takeWhile (fun c => !(c = '\n')) s k hk c hc
        simpa using hf
      · rintro ⟨p, q, rfl, hT, hD⟩
        refine ⟨p.length, ?_, ?_⟩
        · exact length_le_length_takeWhile_append _ p q (fun c hc => by simpa using hT c hc)
        · rw [List.drop_left]
          exact (ih q).mpr hD
    | num =>
      simp only [matchToks, Decomp, TokMatches]
      rw [numLoop_isSome_iff]
      constructor
      · rintro ⟨k, hk, h⟩
        rw [numAt_isSome_iff] at h
        rcases h with ⟨d1, d2, rest, hdrop, h1, h2, hnext⟩
        refine ⟨s.take k ++ ['.', d1, d2], rest, ?_, ?_, (ih _).mp hnext⟩
        · conv_lhs => rw [← List.take_append_drop k s]
          rw [hdrop]
          simp
        · exact ⟨s.take k, d1, d2, all_of_take_le_takeWhile Char.isDigit s k hk, h1, h2, rfl⟩
      · rintro ⟨p, q, hs, ⟨ds, d1, d2, hds, h1, h2, rfl⟩, hD⟩
        subst hs
        have hflat : (ds ++ ['.', d1, d2]) ++ q = ds ++ ('.' :: d1 :: d2 :: q) := by simp
        refine ⟨ds.length, ?_, ?_⟩
        · rw [hflat]
          exact length_le_length_takeWhile_append Char.isDigit ds _ hds
        · rw [numAt_isSome_iff]
          refine ⟨d1, d2, q, ?_, h1, h2, (ih q).mpr hD⟩
          rw [hflat, List.drop_left]
    | inde =>
      simp only [matchToks, tryFirst_isSome, Decomp, TokMatches]
      rw [prefixStep_isSome ts ['i', 'n'] s 2 rfl ih, prefixStep_isSome ts ['d', 'e'] s 2 rfl ih]
      constructor
      · rintro (⟨q, hs, hD⟩ | ⟨q, hs, hD⟩)
        · exact ⟨['i', 'n'], q, hs, Or.inl rfl, hD⟩
        · exact ⟨['d', 'e'], q, hs, Or.inr rfl, hD⟩
      · rintro ⟨p, q, hs, rfl | rfl, hD⟩
        · exact Or.inl ⟨q, hs, hD⟩
        · exact Or.inr ⟨q, hs, hD⟩

theorem getLast?_append_some (l₁ l₂ : List Char) (a : Char) (h : l₂.getLast? = some a) :
    (l₁ ++ l₂).getLast? = some a := by
  rw [List.getLast?_append, h]
  rfl

/-- Every instance of the strict grammar sentence ends with a period. -/
theorem specSentence_ends_dot (s : String) (h : SpecSentence s) :
    s.data.getLast? = some '.' := by
  rcases h with ⟨n, name, pct, dir, m, hq, l, c, hm, hh, hl, hc, hdir, hEq⟩
  rw [hEq]
  repeat apply getLast?_append_some
  rfl

theorem noMatchBranch_ne_quote (p : String) (q : List (String × ℚ)) :
    ¬ noMatchBranch p = .quote q := by
  unfold noMatchBranch
  split <;> intro h <;> exact MatcherOutcome.noConfusion h

theorem noMatchBranch_raised (p : String) (e : PyErr)
    (h : noMatchBranch p = .raised e) :
    e = ⟨.InvalidSymbolError, "This symbol does not have any forecast data"⟩ := by
  unfold noMatchBranch at h
  split at h
  · injection h with h'
    exact h'.symm
  · exact MatcherOutcome.noConfusion h

set_option maxRecDepth 40000

/-- C1: when the comma-stripped text of the first fragment matches the fixed
pattern, with captures m, h, l, c for the groups median, high, low, current,
`get_prices` immediately returns the quote dictionary binding each group
name to the exact decimal value of its captured text, independently of all
later fragments (they are never examined). -/
theorem c1_first_match_returns_exact_decimals (f : Fragment) (rest : List Fragment)
    (m h l c : String)
    (hm : reMatchPattern (stripCommas f.text) = some [m, h, l, c]) :
    get_prices (f :: rest) =
      .quote [("median", decOfString m), ("high", decOfString h),
              ("low", decOfString l), ("current", decOfString c)] := by
  simp only [get_prices, hm]
  rfl

theorem c1_witness :
    get_prices [EX1, ⟨"later fragment"⟩] =
      .quote [("median", decOfString "34.50"), ("high", decOfString "50.00"),
              ("low", decOfString "20.00"), ("current", decOfString "30.00")] :=
  c1_first_match_returns_exact_decimals EX1 [⟨"later fragment"⟩]
    "34.50" "50.00" "20.00" "30.00" (by decide)

/-- C2 counterexample: the concrete text `DEVIANT` is accepted by the source
pattern although it is not an instance of the fixed grammar sentence (it
carries trailing text after the final period), refuting the claimed
equivalence between pattern success and the character-for-character
sentence. -/
theorem c2_counterexample :
    (reMatchPattern DEVIANT).isSome = true ∧ ¬ SpecSentence DEVIANT := by
  constructor
  · decide
  · intro h
    have hdot := specSentence_ends_dot DEVIANT h
    have hz : DEVIANT.data.getLast? = some 'Z' := by decide
    rw [hz] at hdot
    exact absurd hdot (by decide)

/-- C2 amended: a comma-stripped fragment text is accepted by the pattern
exactly when it decomposes along the pattern token list `PATTERN` — the
grammar sentence relaxed so that N is one digit followed by an arbitrary
newline-free run, the placeholder runs never cross a newline, the period
after the low estimate may be any single non-newline character (the dot in
the source pattern is unescaped there), and arbitrary text may follow the
final period (`re.match` leaves the end of the input unanchored). -/
theorem c2_amended_match_iff_decomp (s : String) :
    (reMatchPattern s).isSome = true ↔ Decomp PATTERN s.data := by
  have hiff := matchToks_isSome_iff PATTERN s.data
  unfold reMatchPattern
  cases hm : matchToks PATTERN s.data with
  | some r => simpa [hm] using hiff
  | none => simpa [hm] using hiff

theorem c2_amended_witness : Decomp PATTERN DEVIANT.data :=
  (c2_amended_match_iff_decomp DEVIANT).mp (by decide)

/-- C3: when the comma-stripped text of the first fragment neither matches
the pattern nor lower-cases to the no-forecast sentinel, `get_prices`
returns the Python `False` no-match outcome at once, independently of all
later fragments — even when a later fragment would match. -/
theorem c3_early_stop_on_first_nonmatching (f : Fragment) (rest : List Fragment)
    (hm : reMatchPattern (stripCommas f.text) = none)
    (hsent : ¬ pyLower (stripCommas f.text) = SENTINEL) :
    get_prices (f :: rest) = .pyFalse := by
  simp only [get_prices, hm, noMatchBranch]
  rw [if_neg (by simpa [SENTINEL] using hsent)]

theorem c3_witness :
    get_prices [⟨"No relevant paragraph."⟩, EX1] = .pyFalse ∧
      (reMatchPattern (stripCommas EX1.text)).isSome = true := by
  constructor
  · exact c3_early_stop_on_first_nonmatching ⟨"No relevant paragraph."⟩ [EX1]
      (by decide) (by decide)
  · decide

/-- C4 counterexample: on the empty fragment tuple `get_prices` falls off
the loop and returns Python `None`, while step 3 on a non-matching,
non-sentinel first fragment returns `False`: the two outcomes are not the
same value, refuting the claimed identity. -/
theorem c4_counterexample :
    get_prices [] = .pyNone ∧ get_prices [⟨"unrelated text"⟩] = .pyFalse ∧
      MatcherOutcome.pyNone ≠ MatcherOutcome.pyFalse := by
  refine ⟨rfl, by decide, by decide⟩

/-- C4 amended: the empty fragment sequence produces the implicit `None`
return — a falsy non-quote, non-exception outcome signalling "no match
found" like step 3 does, but a value distinct from step 3's `False`. -/
theorem c4_empty_returns_none :
    get_prices [] = .pyNone ∧
      (∀ q, MatcherOutcome.pyNone ≠ .quote q) ∧
      (∀ e, MatcherOutcome.pyNone ≠ .raised e) ∧
      MatcherOutcome.pyNone ≠ .pyFalse := by
  refine ⟨rfl, ?_, ?_, by decide⟩
  · intro q h
    cases h
  · intro e h
    cases h

theorem c4_witness :
    MatcherOutcome.pyNone ≠ .quote [] ∧
      MatcherOutcome.pyNone ≠ .raised ⟨.InvalidSymbolError, "x"⟩ :=
  ⟨c4_empty_returns_none.2.1 [], c4_empty_returns_none.2.2.1 ⟨.InvalidSymbolError, "x"⟩⟩

/-- C5: whenever `get_prices` returns a quote dictionary, its keys are
exactly median, high, low, current (in `groupdict` order), each bound to an
exact rational decimal value; no partial quote is ever returned. -/
theorem c5_quote_has_exactly_four_keys (items : List Fragment) (q : List (String × ℚ))
    (hq : get_prices items = .quote q) :
    q.map Prod.fst = ["median", "high", "low", "current"] := by
  cases items with
  | nil => exact absurd hq (by simp [get_prices])
  | cons f rest =>
    simp only [get_prices] at hq
    cases hm : reMatchPattern (stripCommas f.text) with
    | none =>
      simp only [hm] at hq
      exact absurd hq (noMatchBranch_ne_quote _ _)
    | some caps =>
      simp only [hm] at hq
      rcases caps with _ | ⟨a, _ | ⟨b, _ | ⟨c0, _ | ⟨d, caps'⟩⟩⟩⟩
      · split at hq
        · next hg => exact Bool.noConfusion hg
        · exact absurd hq (noMatchBranch_ne_quote _ _)
      · split at hq
        · next hg => exact Bool.noConfusion hg
        · exact absurd hq (noMatchBranch_ne_quote _ _)
      · split at hq
        · next hg => exact Bool.noConfusion hg
        · exact absurd hq (noMatchBranch_ne_quote _ _)
      · split at hq
        · next hg => exact Bool.noConfusion hg
        · exact absurd hq (noMatchBranch_ne_quote _ _)
      · split at hq
        · next hg =>
          injection hq with hq'
          rw [← hq']
          rfl
        · next hg => exact absurd rfl hg

theorem c5_witness :
    ([("median", decOfString "1.00"), ("high", decOfString "2.00"),
      ("low", decOfString "0.50"), ("current", decOfString "0.90")].map Prod.fst) =
      ["median", "high", "low", "current"] :=
  c5_quote_has_exactly_four_keys [EX5]
    [("median", decOfString "1.00"), ("high", decOfString "2.00"),
     ("low", decOfString "0.50"), ("current", decOfString "0.90")] (by decide)

/-- C6: with the empty symbol, `fetch` raises InvalidSymbolError carrying
the source's message (the article `The` followed by the spec's phrase), and
the list of dispatched requests is empty: no network activity at all. -/
theorem c6_empty_symbol_no_network (url : String) (http : String → HttpResponse) :
    fetch "" url http =
      (.raised ⟨.InvalidSymbolError, "The symbol must contain at least one character"⟩,
       []) := by
  simp [fetch]

theorem c6_witness :
    fetch "" BASE_URL (fun _ => ⟨200, "OK", "body"⟩) =
      (.raised ⟨.InvalidSymbolError, "The symbol must contain at least one character"⟩,
       []) :=
  c6_empty_symbol_no_network BASE_URL (fun _ => ⟨200, "OK", "body"⟩)

/-- C7: for a non-empty symbol, `fetch` dispatches exactly one request to
`url ++ symbol`; on any non-200 status it raises NetworkError carrying the
exact numeric status code and reason phrase in its message, and on status
200 it returns the full response body. -/
theorem c7_fetch_status_discrimination (symbol url : String) (http : String → HttpResponse)
    (hs : ¬ symbol = "") (code : Nat) (reason body : String)
    (hr : http (url ++ symbol) = ⟨code, reason, body⟩) :
    (¬ code = 200 →
      fetch symbol url http =
        (.raised ⟨.NetworkError,
            "The page could not be loaded. (Error: " ++ toString code ++ " - Reason: " ++
              reason ++ ")"⟩,
         [url ++ symbol])) ∧
    (code = 200 → fetch symbol url http = (.ok body, [url ++ symbol])) := by
  constructor
  · intro hc
    simp [fetch, hs, hr, hc]
  · intro hc
    simp [fetch, hs, hr, hc]

theorem c7_witness :
    fetch "TSLA" BASE_URL (fun _ => ⟨500, "Internal Server Error", ""⟩) =
      (.raised ⟨.NetworkError,
          "The page could not be loaded. (Error: 500 - Reason: Internal Server Error)"⟩,
       [BASE_URL ++ "TSLA"]) := by
  rw [(c7_fetch_status_discrimination "TSLA" BASE_URL
      (fun _ => ⟨500, "Internal Server Error", ""⟩) (by decide) 500 "Internal Server Error" ""
      rfl).1 (by decide)]
  decide

/-- C8: whenever some top-level heading's lower-cased text equals the
sentinel `symbol not found`, `parse` raises InvalidSymbolError with the
symbol-not-found message, whatever the rest of the page holds — the check
precedes the forecasts-tab lookup entirely. -/
theorem c8_symbol_not_found_priority (page : Html)
    (h : "symbol not found" ∈ page.h1Texts.map pyLower) :
    parse page = .raised ⟨.InvalidSymbolError, "The symbol could not be found"⟩ := by
  have hc : (page.h1Texts.map pyLower).contains "symbol not found" = true :=
    List.elem_iff.mpr h
  simp only [parse]
  rw [if_pos hc]

theorem c8_witness :
    parse ⟨["Symbol Not Found"], some [⟨"forecast paragraph"⟩]⟩ =
      .raised ⟨.InvalidSymbolError, "The symbol could not be found"⟩ :=
  c8_symbol_not_found_priority ⟨["Symbol Not Found"], some [⟨"forecast paragraph"⟩]⟩
    (by decide)

/-- C9: when the first fragment's comma-stripped text does not match the
pattern and its lower-casing is exactly the no-forecast sentinel,
`get_prices` raises InvalidSymbolError with the no-forecast-data message at
once, independently of all later fragments. -/
theorem c9_sentinel_raises_no_forecast (f : Fragment) (rest : List Fragment)
    (hm : reMatchPattern (stripCommas f.text) = none)
    (hsent : pyLower (stripCommas f.text) = SENTINEL) :
    get_prices (f :: rest) =
      .raised ⟨.InvalidSymbolError, "This symbol does not have any forecast data"⟩ := by
  simp only [get_prices, hm, noMatchBranch]
  rw [if_pos (by simpa [SENTINEL] using hsent)]

theorem c9_witness :
    get_prices [⟨"There is no forecast data available."⟩, EX1] =
      .raised ⟨.InvalidSymbolError, "This symbol does not have any forecast data"⟩ :=
  c9_sentinel_raises_no_forecast ⟨"There is no forecast data available."⟩ [EX1]
    (by decide) (by decide)

/-- C10: the program defines exactly three exception classes, and the three
failures the spec names InvalidSymbol (empty symbol in `fetch`),
SymbolNotFound (heading sentinel in `parse`) and NoForecastData (fragment
sentinel in `get_prices`) are all raised as the single class
InvalidSymbolError, so they are distinguishable only by their pairwise
distinct message strings, never by class. -/
theorem c10_single_error_class :
    (∀ cl : ErrClass, cl = .InvalidSymbolError ∨ cl = .NetworkError ∨ cl = .ParsingError) ∧
    (∀ url http e reqs, fetch "" url http = (.raised e, reqs) →
      e.cls = .InvalidSymbolError) ∧
    (∀ page e, "symbol not found" ∈ page.h1Texts.map pyLower →
      parse page = .raised e → e.cls = .InvalidSymbolError) ∧
    (∀ items e, get_prices items = .raised e → e.cls = .InvalidSymbolError) ∧
    ¬ ("The symbol must contain at least one character" =
        "The symbol could not be found") ∧
    ¬ ("The symbol must contain at least one character" =
        "This symbol does not have any forecast data") ∧
    ¬ ("The symbol could not be found" =
        "This symbol does not have any forecast data") := by
  refine ⟨?_, ?_, ?_, ?_, by decide, by decide, by decide⟩
  · intro cl
    cases cl
    · exact Or.inl rfl
    · exact Or.inr (Or.inl rfl)
    · exact Or.inr (Or.inr rfl)
  · intro url http e reqs h
    have hf : fetch "" url http =
        (.raised ⟨.InvalidSymbolError, "The symbol must contain at least one character"⟩,
         []) := by simp [fetch]
    rw [hf] at h
    injection h with h1 h2
    injection h1 with h1'
    rw [← h1']
  · intro page e hmem h
    have hc : (page.h1Texts.map pyLower).contains "symbol not found" = true :=
      List.elem_iff.mpr hmem
    simp only [parse] at h
    rw [if_pos hc] at h
    injection h with h'
    rw [← h']
  · intro items e h
    cases items with
    | nil => exact absurd h (by simp [get_prices])
    | cons f rest =>
      simp only [get_prices] at h
      cases hm : reMatchPattern (stripCommas f.text) with
      | none =>
        simp only [hm] at h
        rw [noMatchBranch_raised _ _ h]
      | some caps =>
        simp only [hm] at h
        split at h
        · exact absurd h (by intro hx; cases hx)
        · rw [noMatchBranch_raised _ _ h]

theorem c10_witness :
    (⟨ErrClass.InvalidSymbolError, "This symbol does not have any forecast data"⟩ : PyErr).cls =
      ErrClass.InvalidSymbolError :=
  c10_single_error_class.2.2.2.1 [⟨"There is no forecast data available."⟩]
    ⟨.InvalidSymbolError, "This symbol does not have any forecast data"⟩ (by decide)
